import Mathlib

/-!
Shallow embedding of the wepoll-backed I/O reactor
(source: src/sys/wepoll.rs) and proofs about its contract.

The embedding models:
- the wepoll event-flag constants (values taken from wepoll.h, the C
  library that the `wepoll_sys` bindings re-export);
- the raw `epoll_event` record and the public `Event` view derived from it;
- `Reactor::insert`, `Reactor::interest`, `Reactor::wait`, `Reactor::notify`;
- the reusable `Events` buffer (`new`, the fill performed by `wait`, `iter`).

External kernel calls (`ioctlsocket`, `epoll_ctl`, `epoll_wait`,
`PostQueuedCompletionStatus`) are modelled as explicit parameters carrying
their outcome, so the control flow of the Rust code around them is embedded
faithfully.  Machine integers are modelled as `Nat`/`Int` with explicit
modular reduction where a cast occurs.
-/

namespace Wepoll

/-- `EPOLLIN` flag, value from wepoll.h. -/
def EPOLLIN : Nat := 1

/-- `EPOLLPRI` flag, value from wepoll.h. -/
def EPOLLPRI : Nat := 2

/-- `EPOLLOUT` flag, value from wepoll.h. -/
def EPOLLOUT : Nat := 4

/-- `EPOLLERR` flag, value from wepoll.h. -/
def EPOLLERR : Nat := 8

/-- `EPOLLHUP` flag, value from wepoll.h. -/
def EPOLLHUP : Nat := 16

/-- `EPOLLRDHUP` flag, value from wepoll.h. -/
def EPOLLRDHUP : Nat := 8192

/-- `EPOLLONESHOT` flag, value from wepoll.h (bit 31). -/
def EPOLLONESHOT : Nat := 2147483648

/-- Wepoll flags for all possible readability events (src line 167). -/
def READ_FLAGS : Nat := EPOLLIN ||| EPOLLRDHUP ||| EPOLLHUP ||| EPOLLERR ||| EPOLLPRI

/-- Wepoll flags for all possible writability events (src line 170). -/
def WRITE_FLAGS : Nat := EPOLLOUT ||| EPOLLHUP ||| EPOLLERR

/-- Modulus of the 64-bit unsigned range, for the `as u64` / `as usize` casts
(the target is 64-bit Windows, where `usize` is 64 bits wide). -/
def U64_MOD : Nat := 18446744073709551616

/-- `libc::c_int::max_value()` on Windows (`c_int` is `i32`). -/
def C_INT_MAX : Nat := 2147483647

/-- Nanoseconds per millisecond; a Rust `Duration` is modelled as its total
nanosecond count, and `Duration::as_millis` divides by this. -/
def NANOS_PER_MILLI : Nat := 1000000

/-- The raw `we::epoll_event` record: a `u32` event bitmask and a `u64`
key datum (the `epoll_data` union is only ever used through its `u64` arm). -/
structure epoll_event where
  events : Nat
  data : Nat
deriving DecidableEq, Repr

/-- The public event view `crate::sys::Event` produced by `Events::iter`. -/
structure Event where
  key : Nat
  readable : Bool
  writable : Bool
deriving DecidableEq, Repr

/-- The translation applied to each valid slot by `Events::iter`
(src lines 195-199): `key` is `ev.data.u64 as usize`, and the flags test the
raw bitmask against `READ_FLAGS` / `WRITE_FLAGS`. -/
def toEvent (ev : epoll_event) : Event :=
  { key := ev.data % U64_MOD
  , readable := ev.events &&& READ_FLAGS != 0
  , writable := ev.events &&& WRITE_FLAGS != 0 }

/-- The reusable event list `Events`: a fixed boxed slice of raw records plus
the logical length set by the last `wait`. -/
structure Events where
  list : List epoll_event
  len : Nat
deriving Repr

/-- `Events::new` (src lines 182-191): 1000 zeroed slots, length 0. -/
def Events.new : Events :=
  { list := List.replicate 1000 { events := 0, data := 0 }, len := 0 }

/-- `Events::iter` (src lines 194-200): the `Event` translation of exactly
the first `len` slots, in kernel order. -/
def Events.iter (e : Events) : List Event :=
  (e.list.take e.len).map toEvent

/-- Effect of `epoll_wait` on the caller's buffer: the kernel overwrites the
leading slots with the reported records, leaving the tail untouched. -/
def writePrefix (buf fresh : List epoll_event) : List epoll_event :=
  fresh ++ buf.drop fresh.length

/-- The buffer update performed by a successful `Reactor::wait`
(src lines 133-138): the kernel fills the leading slots and the returned
count becomes the new `len`. -/
def Events.fill (e : Events) (fresh : List epoll_event) : Events :=
  { list := writePrefix e.list fresh, len := fresh.length }

/-- The timeout-to-milliseconds conversion in `Reactor::wait`
(src lines 117-130): `None` becomes the sentinel `-1`; a zero duration
becomes `0`; otherwise the duration is raised to at least one millisecond,
truncated to whole milliseconds by `as_millis`, and the `try_into::<c_int>`
failure is replaced by `c_int::max_value()`. -/
def timeoutMs : Option Nat → Int
  | none => -1
  | some t =>
      if t = 0 then 0
      else
        let ms := (max t NANOS_PER_MILLI) / NANOS_PER_MILLI
        if ms ≤ C_INT_MAX then Int.ofNat ms else Int.ofNat C_INT_MAX

/-- The arguments `Reactor::wait` hands to the kernel `epoll_wait` call:
the buffer capacity as maximum event count, and the quantized timeout. -/
structure KernelWaitCall where
  maxevents : Nat
  timeout : Int
deriving DecidableEq, Repr

namespace Reactor

/-- Outcomes of the two external calls made by `Reactor::insert`, plus the
OS error code that `last_os_error` would report on failure. -/
structure InsertEnv where
  ioctlRes : Int
  ctlRes : Int
  osErr : Int
deriving DecidableEq, Repr

/-- `Reactor::insert` (src lines 45-72).  First `ioctlsocket(FIONBIO)` puts
the socket in non-blocking mode; a non-zero result aborts with the OS error.
Only then is the socket registered via `epoll_ctl(EPOLL_CTL_ADD)` with a
zeroed record.  The second component records the interest record passed to
`epoll_ctl`, or `none` when that call was never reached. -/
def insert (env : InsertEnv) : Except Int Unit × Option epoll_event :=
  if env.ioctlRes ≠ 0 then
    (Except.error env.osErr, none)
  else
    let ev : epoll_event := { events := 0, data := 0 }
    if env.ctlRes = -1 then
      (Except.error env.osErr, some ev)
    else
      (Except.ok (), some ev)

/-- The flag computation at the head of `Reactor::interest`
(src lines 76-82): `EPOLLONESHOT` always, `READ_FLAGS` or-ed in when `read`,
`WRITE_FLAGS` or-ed in when `write`. -/
def interestFlags (read write : Bool) : Nat :=
  let flags := EPOLLONESHOT
  let flags := if read then flags ||| READ_FLAGS else flags
  let flags := if write then flags ||| WRITE_FLAGS else flags
  flags

/-- The interest record built by `Reactor::interest` (src lines 75-87) and
passed to `epoll_ctl(EPOLL_CTL_MOD)`: the flags above plus the key cast
to `u64`. -/
def interest (key : Nat) (read write : Bool) : epoll_event :=
  { events := interestFlags read write, data := key % U64_MOD }

/-- `Reactor::wait` (src lines 115-141).  The first component records the
arguments passed to `epoll_wait` (the full buffer capacity as `maxevents`,
and the quantized timeout); `kres` is the outcome of that external call,
either an OS error or the list of records the kernel wrote into the leading
slots.  On success the buffer is filled and the count returned. -/
def wait (e : Events) (timeout : Option Nat) (kres : Except Int (List epoll_event)) :
    KernelWaitCall × Except Int (Events × Nat) :=
  ({ maxevents := e.list.length, timeout := timeoutMs timeout },
   match kres with
   | Except.error c => Except.error c
   | Except.ok fresh => Except.ok (e.fill fresh, fresh.length))

/-- `Reactor::notify` (src lines 144-155): posts a completion packet and
discards the result of `PostQueuedCompletionStatus` (`postRes`), always
returning `Ok(())`. -/
def notify (postRes : Int) : Except Int Unit :=
  Except.ok ()

end Reactor

/-- Modelled from the spec: the readiness records reported by the kernel
object backing `epoll_wait` (the wepoll library itself, which is not part of
this repository).  `pending` is the list of real readiness records available,
`notifies` the number of unconsumed `notify` wake-up posts; the spec states
that a wake-up "is never surfaced as one of the buffer's events and never
increments the returned count", so the reported list is the pending real
readiness clipped to `maxevents`, independent of `notifies`. -/
def kernelReported (pending : List epoll_event) (notifies : Nat) (maxevents : Nat) :
    List epoll_event :=
  pending.take maxevents

/-! ## Helper lemmas -/

/-- If every bit of `b` is a bit of `a` (i.e. `a &&& b = b`), then a word with
no bit of `a` has no bit of `b` either. -/
lemma land_eq_zero_of_land_superset {x a b : Nat} (hsub : a &&& b = b)
    (h : x &&& a = 0) : x &&& b = 0 := by
  calc x &&& b = x &&& (a &&& b) := by rw [hsub]
    _ = x &&& a &&& b := (Nat.land_assoc x a b).symm
    _ = 0 &&& b := by rw [h]
    _ = 0 := Nat.zero_and b

/-- A successful `wait` fill makes `iter` return exactly the kernel-reported
records, translated; the stale tail beyond the new length is never consulted. -/
lemma fill_iter (e : Events) (fresh : List epoll_event) :
    (e.fill fresh).iter = fresh.map toEvent := by
  unfold Events.iter Events.fill writePrefix
  simp only
  rw [List.take_left]

/-- The fresh buffer has exactly its fixed capacity of 1000 slots. -/
lemma new_list_length : Events.new.list.length = 1000 := by
  have h : Events.new.list = List.replicate 1000 { events := 0, data := 0 } := rfl
  rw [h, List.length_replicate]

/-- Filling with at most capacity-many records preserves the buffer size. -/
lemma fill_length (e : Events) (fresh : List epoll_event)
    (h : fresh.length ≤ e.list.length) :
    (e.fill fresh).list.length = e.list.length := by
  simp [Events.fill, writePrefix]
  omega

/-! ## Claim theorems -/

/-- C1: the duration passed to the kernel wait by `Reactor::wait` is
quantized: `none` yields the sentinel `-1` (block indefinitely); a zero
duration yields `0` (non-blocking poll); a strictly positive duration below
one millisecond is rounded up to exactly one millisecond; a duration of one
millisecond or more is rounded down to whole milliseconds; and a millisecond
count exceeding `c_int::MAX` is clamped to `c_int::MAX`. -/
theorem wait_timeout_quantization (e : Events)
    (kres : Except Int (List epoll_event)) (t : Nat) :
    (Reactor.wait e none kres).1.timeout = -1 ∧
    (Reactor.wait e (some 0) kres).1.timeout = 0 ∧
    (0 < t → t < NANOS_PER_MILLI →
      (Reactor.wait e (some t) kres).1.timeout = 1) ∧
    (NANOS_PER_MILLI ≤ t → t / NANOS_PER_MILLI ≤ C_INT_MAX →
      (Reactor.wait e (some t) kres).1.timeout = Int.ofNat (t / NANOS_PER_MILLI)) ∧
    (C_INT_MAX < t / NANOS_PER_MILLI →
      (Reactor.wait e (some t) kres).1.timeout = Int.ofNat C_INT_MAX) := by
  refine ⟨rfl, rfl, ?_, ?_, ?_⟩
  · intro h1 h2
    show timeoutMs (some t) = 1
    have ht : t ≠ 0 := Nat.pos_iff_ne_zero.mp h1
    simp only [timeoutMs, if_neg ht]
    rw [max_eq_right (le_of_lt h2)]
    decide
  · intro h1 h2
    show timeoutMs (some t) = Int.ofNat (t / NANOS_PER_MILLI)
    have ht : t ≠ 0 := by
      unfold NANOS_PER_MILLI at h1; omega
    simp only [timeoutMs, if_neg ht]
    rw [max_eq_left h1, if_pos h2]
  · intro h1
    show timeoutMs (some t) = Int.ofNat C_INT_MAX
    have hbig : NANOS_PER_MILLI ≤ t := by
      by_contra hc
      push_neg at hc
      rw [Nat.div_eq_of_lt hc] at h1
      exact absurd h1 (by decide)
    have ht : t ≠ 0 := by
      intro h0
      subst h0
      exact absurd hbig (by decide)
    simp only [timeoutMs, if_neg ht]
    rw [max_eq_left hbig, if_neg (not_le.mpr h1)]

/-- C1 witness: concrete evaluations of the three conditional branches. -/
theorem wait_timeout_quantization_witness :
    (Reactor.wait Events.new (some 250000) (Except.ok [])).1.timeout = 1 ∧
    (Reactor.wait Events.new (some 2500000) (Except.ok [])).1.timeout =
      Int.ofNat (2500000 / NANOS_PER_MILLI) ∧
    (Reactor.wait Events.new (some 3000000000000000) (Except.ok [])).1.timeout =
      Int.ofNat C_INT_MAX :=
  ⟨(wait_timeout_quantization Events.new (Except.ok []) 250000).2.2.1
      (by decide) (by decide),
   (wait_timeout_quantization Events.new (Except.ok []) 2500000).2.2.2.1
      (by decide) (by decide),
   (wait_timeout_quantization Events.new (Except.ok []) 3000000000000000).2.2.2.2
      (by decide)⟩

/-- C2: a raw record whose bitmask has `EPOLLERR` or `EPOLLHUP` set is
translated by the `Events::iter` map into an `Event` with both
`readable = true` and `writable = true`, with no dependence on which
directions were requested via `interest`. -/
theorem err_hup_sets_both_directions (ev : epoll_event)
    (h : ev.events &&& EPOLLERR ≠ 0 ∨ ev.events &&& EPOLLHUP ≠ 0) :
    (toEvent ev).readable = true ∧ (toEvent ev).writable = true ∧
    (∀ e : Events, e.iter = (e.list.take e.len).map toEvent) := by
  have hr : ev.events &&& READ_FLAGS ≠ 0 := by
    intro h0
    rcases h with h | h
    · exact h (land_eq_zero_of_land_superset
        (by decide : READ_FLAGS &&& EPOLLERR = EPOLLERR) h0)
    · exact h (land_eq_zero_of_land_superset
        (by decide : READ_FLAGS &&& EPOLLHUP = EPOLLHUP) h0)
  have hw : ev.events &&& WRITE_FLAGS ≠ 0 := by
    intro h0
    rcases h with h | h
    · exact h (land_eq_zero_of_land_superset
        (by decide : WRITE_FLAGS &&& EPOLLERR = EPOLLERR) h0)
    · exact h (land_eq_zero_of_land_superset
        (by decide : WRITE_FLAGS &&& EPOLLHUP = EPOLLHUP) h0)
  refine ⟨?_, ?_, fun e => rfl⟩
  · simp [toEvent, hr]
  · simp [toEvent, hw]

/-- C2 witness: a hangup-only bitmask yields readable and writable. -/
theorem err_hup_sets_both_directions_witness :
    (toEvent { events := 16, data := 7 }).readable = true ∧
    (toEvent { events := 16, data := 7 }).writable = true ∧
    (∀ e : Events, e.iter = (e.list.take e.len).map toEvent) :=
  err_hup_sets_both_directions { events := 16, data := 7 } (Or.inr (by decide))

/-- C3: the interest record built by `Reactor::interest` always carries the
one-shot flag; it contains the whole read-flag set exactly when `read` is
requested, the whole write-flag set exactly when `write` is requested, and
with neither requested it is exactly `EPOLLONESHOT` (zero readiness flags). -/
theorem interest_flags_law (key : Nat) (r w : Bool) :
    (Reactor.interest key r w).events = Reactor.interestFlags r w ∧
    (Reactor.interestFlags r w &&& EPOLLONESHOT = EPOLLONESHOT) ∧
    ((Reactor.interestFlags r w &&& READ_FLAGS = READ_FLAGS) ↔ r = true) ∧
    ((Reactor.interestFlags r w &&& WRITE_FLAGS = WRITE_FLAGS) ↔ w = true) ∧
    (Reactor.interestFlags false false = EPOLLONESHOT) := by
  refine ⟨rfl, ?_⟩
  cases r <;> cases w <;> decide

/-- C6: the key round-trips unchanged: the value stored by
`Reactor::interest` via the `usize`-to-`u64` cast, read back through the
`u64`-to-`usize` cast in the `Events::iter` translation, equals the supplied
key for every key in the 64-bit range. -/
theorem key_roundtrip (key e2 : Nat) (r w : Bool) (hk : key < U64_MOD) :
    (toEvent { events := e2, data := (Reactor.interest key r w).data }).key
      = key := by
  simp [toEvent, Reactor.interest, Nat.mod_eq_of_lt hk]

/-- C6 witness: key 42 survives the store/load round trip. -/
theorem key_roundtrip_witness :
    (toEvent { events := 0, data := (Reactor.interest 42 true false).data }).key
      = 42 :=
  key_roundtrip 42 0 true false (by decide)

/-- C7: `Reactor::notify` returns `Ok(())` whatever the underlying
`PostQueuedCompletionStatus` call reported. -/
theorem notify_always_ok (postRes : Int) :
    Reactor.notify postRes = Except.ok () := rfl

/-- C4: if putting the socket into non-blocking mode fails, `Reactor::insert`
returns the OS error and the `epoll_ctl` insertion step is never reached. -/
theorem insert_nonblocking_failure_aborts (env : Reactor.InsertEnv)
    (h : env.ioctlRes ≠ 0) :
    Reactor.insert env = (Except.error env.osErr, none) := by
  simp [Reactor.insert, h]

/-- C4 witness: a failing `ioctlsocket` result aborts before registration. -/
theorem insert_nonblocking_failure_aborts_witness :
    Reactor.insert { ioctlRes := 1, ctlRes := 0, osErr := 10035 }
      = (Except.error 10035, none) :=
  insert_nonblocking_failure_aborts
    { ioctlRes := 1, ctlRes := 0, osErr := 10035 } (by decide)

/-- C5: every successful `Reactor::insert` registers the socket with the
all-zero interest record (zero event bitmask, zero key), which translates
to an `Event` with key 0 and neither direction ready. -/
theorem insert_success_zeroed_record (env : Reactor.InsertEnv)
    (h : (Reactor.insert env).1 = Except.ok ()) :
    (Reactor.insert env).2 = some { events := 0, data := 0 } ∧
    (toEvent { events := 0, data := 0 }).key = 0 ∧
    (toEvent { events := 0, data := 0 }).readable = false ∧
    (toEvent { events := 0, data := 0 }).writable = false := by
  refine ⟨?_, by decide, by decide, by decide⟩
  by_cases h1 : env.ioctlRes = 0
  · by_cases h2 : env.ctlRes = -1
    · exfalso
      simp [Reactor.insert, h1, h2] at h
    · simp [Reactor.insert, h1, h2]
  · exfalso
    simp [Reactor.insert, h1] at h

/-- C5 witness: the successful path stores the zeroed record. -/
theorem insert_success_zeroed_record_witness :
    (Reactor.insert { ioctlRes := 0, ctlRes := 0, osErr := 0 }).2
      = some { events := 0, data := 0 } ∧
    (toEvent { events := 0, data := 0 }).key = 0 ∧
    (toEvent { events := 0, data := 0 }).readable = false ∧
    (toEvent { events := 0, data := 0 }).writable = false :=
  insert_success_zeroed_record { ioctlRes := 0, ctlRes := 0, osErr := 0 } rfl

/-- C8: after a fill with K kernel records, `iter` yields exactly those K
events; after a subsequent fill with M < K records, `iter` yields exactly
those M events, none of the stale K-fill entries; and the iteration result
is unchanged by arbitrary contents beyond index `len` (no slot at index
`len` or beyond is ever read). -/
theorem buffer_reuse (buf : Events) (fresh1 fresh2 : List epoll_event)
    (hK : fresh1.length ≤ buf.list.length)
    (hM : fresh2.length < fresh1.length) :
    ((buf.fill fresh1).iter = fresh1.map toEvent) ∧
    ((buf.fill fresh1).iter.length = fresh1.length) ∧
    (((buf.fill fresh1).fill fresh2).iter = fresh2.map toEvent) ∧
    (((buf.fill fresh1).fill fresh2).iter.length = fresh2.length) ∧
    (∀ rest : List epoll_event,
      Events.iter
        { list := ((buf.fill fresh1).fill fresh2).list.take fresh2.length ++ rest,
          len := fresh2.length }
        = ((buf.fill fresh1).fill fresh2).iter) := by
  have h1 := fill_iter buf fresh1
  have h2 := fill_iter (buf.fill fresh1) fresh2
  have hlen1 : (buf.fill fresh1).list.length = buf.list.length :=
    fill_length buf fresh1 hK
  have hlen2 : fresh2.length ≤ (buf.fill fresh1).list.length := by omega
  have hlenE : ((buf.fill fresh1).fill fresh2).list.length
      = (buf.fill fresh1).list.length :=
    fill_length _ fresh2 hlen2
  have hle : fresh2.length ≤ ((buf.fill fresh1).fill fresh2).list.length := by
    omega
  refine ⟨h1, by rw [h1, List.length_map], h2, by rw [h2, List.length_map], ?_⟩
  intro rest
  unfold Events.iter
  simp only
  rw [List.take_append_of_le_length (by rw [List.length_take_of_le hle])]
  rw [List.take_take, Nat.min_self]
  rfl

/-- C8 witness: a 2-record fill followed by a 1-record fill on a fresh
buffer replays the new single event and none of the stale pair. -/
theorem buffer_reuse_witness :
    ((Events.new.fill [{ events := 1, data := 3 }, { events := 4, data := 9 }]).iter
      = [{ events := 1, data := 3 }, { events := 4, data := 9 }].map toEvent) ∧
    (((Events.new.fill [{ events := 1, data := 3 }, { events := 4, data := 9 }]).fill
        [{ events := 16, data := 5 }]).iter
      = [{ events := 16, data := 5 }].map toEvent) :=
  ⟨(buffer_reuse Events.new
      [{ events := 1, data := 3 }, { events := 4, data := 9 }]
      [{ events := 16, data := 5 }] (by rw [new_list_length]; decide)
      (by simp)).1,
   (buffer_reuse Events.new
      [{ events := 1, data := 3 }, { events := 4, data := 9 }]
      [{ events := 16, data := 5 }] (by rw [new_list_length]; decide)
      (by simp)).2.2.1⟩

/-- C9: the notification wake-up is never surfaced: the kernel-reported
record list is independent of the number of pending `notify` posts, and with
no real readiness pending a `wait` returns count 0 and a buffer whose
iteration is empty. -/
theorem notify_never_surfaced (e : Events) (t : Option Nat) (notifies : Nat) :
    kernelReported [] notifies e.list.length = [] ∧
    (∀ (p : List epoll_event) (n m mx : Nat),
      kernelReported p n mx = kernelReported p m mx) ∧
    (Reactor.wait e t (Except.ok (kernelReported [] notifies e.list.length))).2
      = Except.ok (e.fill [], 0) ∧
    (e.fill []).len = 0 ∧
    (e.fill []).iter = [] := by
  have hnil : kernelReported [] notifies e.list.length = [] := by
    simp [kernelReported]
  refine ⟨hnil, fun p n m mx => rfl, ?_, rfl, rfl⟩
  rw [hnil]
  rfl

/-- C10: the buffer invariant `len ≤ capacity`: `new` establishes length 0
over 1000 slots, `wait` passes the full capacity as the kernel's maximum
event count and stores the returned count as `len`, and `iter` over the
first `len` slots is therefore always in bounds. -/
theorem events_len_le_capacity :
    Events.new.len = 0 ∧
    Events.new.list.length = 1000 ∧
    (∀ (e : Events) (t : Option Nat) (kres : Except Int (List epoll_event)),
      (Reactor.wait e t kres).1.maxevents = e.list.length) ∧
    (∀ (e : Events) (t : Option Nat) (fresh : List epoll_event),
      fresh.length ≤ e.list.length →
      (Reactor.wait e t (Except.ok fresh)).2
          = Except.ok (e.fill fresh, fresh.length) ∧
      (e.fill fresh).len = fresh.length ∧
      (e.fill fresh).len ≤ (e.fill fresh).list.length ∧
      (e.fill fresh).list.length = e.list.length) ∧
    (∀ e : Events, e.len ≤ e.list.length → e.iter.length = e.len) := by
  refine ⟨rfl, new_list_length, fun e t kres => rfl, ?_, ?_⟩
  · intro e t fresh h
    have hl := fill_length e fresh h
    refine ⟨rfl, rfl, ?_, hl⟩
    rw [hl]
    exact h
  · intro e h
    unfold Events.iter
    rw [List.length_map, List.length_take_of_le h]

/-- C10 witness: a one-record wait on a fresh buffer keeps `len` within
capacity and `iter` in bounds. -/
theorem events_len_le_capacity_witness :
    ((Events.new.fill [{ events := 1, data := 5 }]).len
      ≤ (Events.new.fill [{ events := 1, data := 5 }]).list.length) ∧
    Events.new.iter.length = Events.new.len :=
  ⟨(events_len_le_capacity.2.2.2.1 Events.new none [{ events := 1, data := 5 }]
      (by rw [new_list_length]; decide)).2.2.1,
   events_len_le_capacity.2.2.2.2 Events.new (Nat.zero_le _)⟩

end Wepoll
